import Mathlib

/-! # Monitor bot core: dedup / time-filter pipeline

A shallow embedding of `hashed_monitor_bot.py`. URLs are modelled at the
level of their parsed components (the `urlparse` / `parse_qsl` view the
script manipulates); external pure functions the script calls (dateutil
timestamp parsing, `strptime`, `isoformat`, `urlunparse`, the sha256 hex
digest) are abstracted as function-valued fields of an `Ext` record, and
all effects (HTTP fetches, sheet reads and writes, Slack posts) are made
explicit: fetch outcomes are inputs, and the run produces an event trace
recording reads, writes, appends and notifications in program order. -/

namespace MonitorBot

/-- Cap on individual Slack alerts per run (`MAX_SLACK_ALERTS`). -/
def MAX_SLACK_ALERTS : Nat := 10

/-- Cap on seen ids loaded from the sheet (`SHEET_ID_LOAD_LIMIT`). -/
def SHEET_ID_LOAD_LIMIT : Nat := 8000

/-- Hard lookback window in days (`MAX_LOOKBACK_DAYS`). -/
def MAX_LOOKBACK_DAYS : Int := 7

/-- Parsed URL, mirroring the `urllib.parse.urlparse` result that
`normalize_url` manipulates: scheme, netloc, path, params, the query as
the key/value pairs produced by `parse_qsl` with `keep_blank_values=True`,
and the fragment. -/
structure URL where
  scheme : String
  netloc : String
  path : String
  params : String
  query : List (String × String)
  fragment : String
deriving DecidableEq, Repr

/-- External pure functions used by the script, abstracted: `parse` is
`dateutil.parser.parse` composed with the timezone normalisation of
`safe_parse_dt` (instants as integer seconds); `parseSeen` is
`datetime.strptime(·, "%Y%m%d%H%M%S")` for GDELT seendates; `isoOf` is
`datetime.isoformat`; `urlunparse` serialises a parsed URL back to a
string; `sha256hex` is the sha256 hex digest. Theorems quantify over
these, so they hold for the real implementations in particular. -/
structure Ext where
  parse : String → Option Int
  parseSeen : String → Option Int
  isoOf : Int → String
  urlunparse : URL → String
  sha256hex : String → String

/-- Python `str.lower`, modelled structurally over the character list so
the kernel can evaluate it. -/
def strLower (s : String) : String := String.mk (s.data.map Char.toLower)

/-- Python `str.startswith`, modelled structurally. -/
def strStartsWith (s pre : String) : Bool := pre.data.isPrefixOf s.data

/-- Python `str.strip`: drop leading and trailing whitespace. -/
def strTrim (s : String) : String :=
  String.mk (((s.data.dropWhile Char.isWhitespace).reverse.dropWhile
    Char.isWhitespace).reverse)

/-- The tracking-parameter test of `normalize_url`: the lower-cased key
starts with `utm_` or is one of the four click-id keys. -/
def isTrackingKey (k : String) : Bool :=
  strStartsWith (strLower k) "utm_" ||
    decide (strLower k = "fbclid") || decide (strLower k = "gclid") ||
    decide (strLower k = "mc_cid") || decide (strLower k = "mc_eid")

/-- The query-filtering loop of `normalize_url` (build `filtered` by
appending every pair whose key is not a tracking key). -/
def filterTrackingLoop : List (String × String) → List (String × String)
  | [] => []
  | kv :: rest =>
    let lk := strLower kv.1
    if strStartsWith lk "utm_" then filterTrackingLoop rest
    else if lk = "fbclid" ∨ lk = "gclid" ∨ lk = "mc_cid" ∨ lk = "mc_eid" then
      filterTrackingLoop rest
    else kv :: filterTrackingLoop rest

/-- `normalize_url`: drop the fragment, drop tracking query parameters,
lower-case the netloc, leaving the other components alone. (The
string-level early return for an empty input and the `urlencode` /
`urlunparse` re-serialisation are below the component-level model.) -/
def normalize_url (u : URL) : URL :=
  let p1 := { u with fragment := "" }
  let p2 := { p1 with query := filterTrackingLoop p1.query }
  { p2 with netloc := strLower p2.netloc }

/-- `make_id`: sha256 hex digest of `"{source}|{normalize_url(url)}"`. -/
def make_id (ext : Ext) (source : String) (url : URL) : String :=
  ext.sha256hex (source ++ "|" ++ ext.urlunparse (normalize_url url))

/-- `safe_parse_dt`: `None` for an absent or empty value, otherwise the
(abstracted) dateutil parse, which itself returns `None` on failure. -/
def safe_parse_dt (parse : String → Option Int) : Option String → Option Int
  | none => none
  | some s => if s = "" then none else parse s

/-- A candidate mention as built by the fetchers: source tag, title, link,
and the `published_at` field (an isoformat string when present). -/
structure Item where
  source : String
  title : String
  url : URL
  published_at : Option String
deriving DecidableEq, Repr

/-- A Google News RSS feed entry as consumed by `fetch_google_news_rss`. -/
structure RssEntry where
  title : String
  link : URL
  published : Option String
deriving DecidableEq, Repr

/-- `fetch_google_news_rss`: keep entries whose `published` parses, and
record the parsed instant re-serialised with `isoformat`. -/
def fetch_google_news_rss (ext : Ext) (entries : List RssEntry) : List Item :=
  entries.filterMap fun e =>
    match safe_parse_dt ext.parse e.published with
    | none => none
    | some dt =>
      some { source := "GoogleNewsRSS", title := e.title, url := e.link,
             published_at := some (ext.isoOf dt) }

/-- A GDELT article record: title, url and the raw `seendate` string. -/
structure GdeltArticle where
  title : String
  url : URL
  seendate : Option String
deriving DecidableEq, Repr

/-- Outcome of one GDELT request attempt, as distinguished by
`fetch_gdelt`: non-200 status, empty body, non-JSON content type, a
network exception, or a successful JSON article list. -/
inductive GdeltAttempt where
  | httpError (code : Nat)
  | emptyBody
  | wrongContentType (ctype : String)
  | netException (msg : String)
  | success (articles : List GdeltArticle)
deriving DecidableEq, Repr

/-- Whether a GDELT attempt outcome is the success case. -/
def GdeltAttempt.succeeded : GdeltAttempt → Bool
  | .success _ => true
  | _ => false

/-- Observable actions of the GDELT fetch loop: an HTTP request for a
given attempt number, or a sleep of some duration. `fetch_gdelt` performs
requests only; the trace records what actually happens between them. -/
inductive FetchAction where
  | request (attempt : Nat)
  | sleep (seconds : Nat)
deriving DecidableEq, Repr

/-- Whether a fetch action is a sleep. -/
def FetchAction.isSleep : FetchAction → Bool
  | .sleep _ => true
  | _ => false

/-- Result of `fetch_gdelt`: the parsed items and the action trace. -/
structure GdeltResult where
  results : List Item
  trace : List FetchAction
deriving DecidableEq, Repr

/-- The per-article processing of a successful GDELT response: skip an
article whose `seendate` is absent or fails `strptime`, otherwise emit an
item with the parsed instant re-serialised via `isoformat`. -/
def gdeltParseArticles (ext : Ext) (arts : List GdeltArticle) : List Item :=
  arts.filterMap fun a =>
    match a.seendate with
    | none => none
    | some sd =>
      match ext.parseSeen sd with
      | none => none
      | some dt =>
        some { source := "GDELT", title := a.title, url := a.url,
               published_at := some (ext.isoOf dt) }

/-- The retry loop of `fetch_gdelt`: attempts are numbered from
`attempt`, at most `fuel` more are made, each one back-to-back (the loop
body contains no sleep); the first success returns its parsed articles,
and exhaustion gives up with an empty result. -/
def fetchGdeltGo (ext : Ext) (w : Nat → GdeltAttempt) (attempt : Nat) :
    Nat → GdeltResult
  | 0 => { results := [], trace := [] }
  | fuel + 1 =>
    match w attempt with
    | GdeltAttempt.success arts =>
      { results := gdeltParseArticles ext arts,
        trace := [FetchAction.request attempt] }
    | _ =>
      let r := fetchGdeltGo ext w (attempt + 1) fuel
      { results := r.results, trace := FetchAction.request attempt :: r.trace }

/-- `fetch_gdelt`: up to `retries` attempts (the script's default, used
by `run`, is 3) against the attempt-outcome environment `w`; failure of
all attempts degrades to an empty result list instead of raising. -/
def fetch_gdelt (ext : Ext) (w : Nat → GdeltAttempt) (retries : Nat) :
    GdeltResult :=
  fetchGdeltGo ext w 1 retries

/-- `sheet_get_existing_ids`: column A minus the header, capped to the
most recent `SHEET_ID_LOAD_LIMIT` entries, used as the seen-ID set. -/
def sheet_get_existing_ids (col : List String) : List String :=
  let ids := col.drop 1
  if SHEET_ID_LOAD_LIMIT < ids.length then ids.drop (ids.length - SHEET_ID_LOAD_LIMIT)
  else ids

/-- The scanning loop of `meta_get_since`: first row with at least two
cells whose first cell is `since` decides the result — `None` when its
second cell is empty, otherwise the stripped value. -/
def metaSinceLoop : List (List String) → Option String
  | [] => none
  | row :: rest =>
    if 2 ≤ row.length ∧ row.headD "" = "since" then
      (let v := row.getD 1 ""
       if v = "" then none else some (strTrim v))
    else metaSinceLoop rest

/-- `meta_get_since`: scan the meta rows below the header. -/
def meta_get_since (values : List (List String)) : Option String :=
  metaSinceLoop (values.drop 1)

/-- The per-item acceptance test of the date-filter loop in `run`: the
parsed `published_at` must exist, be no older than the lookback floor, no
further in the future than five minutes, and at or after both the KST
midnight and the (already clamped) `since` lower bound. -/
def timeAccept (ext : Ext) (now midnight sinceDt : Int) (m : Item) : Bool :=
  match safe_parse_dt ext.parse m.published_at with
  | none => false
  | some p =>
    if p < now - MAX_LOOKBACK_DAYS * 86400 then false
    else if now + 5 * 60 < p then false
    else decide (midnight ≤ p) && decide (sinceDt ≤ p)

/-- The date-filter loop of `run` over the merged fetch results. -/
def filterItems (ext : Ext) (now midnight sinceDt : Int) (items : List Item) :
    List Item :=
  items.filter (timeAccept ext now midnight sinceDt)

/-- A mention after the dedup loop enriched it: url normalised, id
computed, `fetched_at` stamped. -/
structure NewMention where
  base : Item
  id : String
  fetched_at : Int
deriving DecidableEq, Repr

/-- The enrichment the dedup loop applies to every filtered candidate
before the membership test: normalise the url in place, then compute the
id from source and (normalised) url, and stamp `fetched_at`. -/
def enrich (ext : Ext) (fetchedAt : Int) (m : Item) : NewMention :=
  let m1 := { m with url := normalize_url m.url }
  { base := m1, id := make_id ext m1.source m1.url, fetched_at := fetchedAt }

/-- The dedup loop of `run`: keep, in input order, exactly the enriched
candidates whose id is not among the loaded seen ids. The loop consults
only the seen-ID set loaded at the start — it never adds the ids it has
just routed to `new` — so equal-id candidates within one batch all pass. -/
def dedupNew (ext : Ext) (fetchedAt : Int) (existing : List String)
    (candidates : List Item) : List NewMention :=
  (candidates.map (enrich ext fetchedAt)).filter fun nm => !(existing.contains nm.id)

/-- The complement of `dedupNew`: the enriched candidates the dedup loop
drops because their id is already in the seen-ID set. -/
def dedupSkipped (ext : Ext) (fetchedAt : Int) (existing : List String)
    (candidates : List Item) : List NewMention :=
  (candidates.map (enrich ext fetchedAt)).filter fun nm => existing.contains nm.id

/-- A persisted sheet row `[id, fetched_at, published_at, source, title, url]`. -/
structure Row where
  id : String
  fetched_at : Int
  published_at : Option String
  source : String
  title : String
  url : URL
deriving DecidableEq, Repr

/-- Build the sheet row of a new mention. -/
def mkRow (nm : NewMention) : Row :=
  { id := nm.id, fetched_at := nm.fetched_at, published_at := nm.base.published_at,
    source := nm.base.source, title := nm.base.title, url := nm.base.url }

/-- Externally observable events of one run, in program order. -/
inductive Event where
  | readSince
  | fetchSource (name : String)
  | loadIds
  | appendRows (rows : List Row)
  | notifyMention (m : NewMention)
  | notifyDigest (ms : List NewMention)
  | writeSince (t : Int)
deriving DecidableEq, Repr

/-- Everything a run computes, plus its event trace. -/
structure RunResult where
  events : List Event
  allResults : List Item
  filtered : List Item
  newMentions : List NewMention
  rows : List Row
  toSend : List NewMention
  remaining : List NewMention
  newSince : Int
deriving DecidableEq, Repr

/-- The result of the two early-return branches of `run` (first run with
no watermark, and unparseable watermark): read `since`, write it to
`now`, and do nothing else. -/
def bootstrapResult (now : Int) : RunResult :=
  { events := [Event.readSince, Event.writeSince now],
    allResults := [], filtered := [], newMentions := [], rows := [],
    toSend := [], remaining := [], newSince := now }

/-- The main path of `run` once a watermark `sinceT` has been parsed:
clamp it to the KST midnight, fetch both sources, date-filter, dedup
against the sheet ids, and — only when there are new mentions — append
the rows and then notify (up to `MAX_SLACK_ALERTS` individual messages,
the rest as one digest); finally write `since := now`. -/
def runCore (ext : Ext) (now midnight sinceT : Int) (sheetCol : List String)
    (rssEntries : List RssEntry) (gw : Nat → GdeltAttempt) : RunResult :=
  let sinceDt := if sinceT < midnight then midnight else sinceT
  let gres := fetch_gdelt ext gw 3
  let allResults := fetch_google_news_rss ext rssEntries ++ gres.results
  let filtered := filterItems ext now midnight sinceDt allResults
  let existing := sheet_get_existing_ids sheetCol
  let newMentions := dedupNew ext now existing filtered
  let rows := newMentions.map mkRow
  let toSend := newMentions.take MAX_SLACK_ALERTS
  let remaining := newMentions.drop MAX_SLACK_ALERTS
  let notifyEvents := toSend.map Event.notifyMention ++
    (if remaining.isEmpty then [] else [Event.notifyDigest remaining])
  { events := [Event.readSince, Event.fetchSource "GoogleNewsRSS",
      Event.fetchSource "GDELT", Event.loadIds] ++
      (if newMentions.isEmpty then [] else Event.appendRows rows :: notifyEvents) ++
      [Event.writeSince now],
    allResults := allResults, filtered := filtered, newMentions := newMentions,
    rows := rows, toSend := toSend, remaining := remaining, newSince := now }

/-- `run`: fail on a missing Slack channel; bootstrap when the watermark
is absent, blank, or unparseable; otherwise execute the main path. -/
def run (ext : Ext) (channel : String) (now midnight : Int)
    (metaValues : List (List String)) (sheetCol : List String)
    (rssEntries : List RssEntry) (gw : Nat → GdeltAttempt) :
    Except String RunResult :=
  if channel = "" then Except.error "SLACK_CHANNEL is missing."
  else
    match meta_get_since metaValues with
    | none => Except.ok (bootstrapResult now)
    | some s =>
      if s = "" then Except.ok (bootstrapResult now)
      else
        match safe_parse_dt ext.parse (some s) with
        | none => Except.ok (bootstrapResult now)
        | some t => Except.ok (runCore ext now midnight t sheetCol rssEntries gw)

/-- The values written to the `since` watermark during a trace. -/
def sinceWrites (evs : List Event) : List Int :=
  evs.filterMap fun e =>
    match e with
    | Event.writeSince t => some t
    | _ => none

/-- Whether an event is the watermark read. -/
def isReadSince : Event → Bool
  | Event.readSince => true
  | _ => false

/-- Whether an event is a source fetch. -/
def isFetchEv : Event → Bool
  | Event.fetchSource _ => true
  | _ => false

/-- Whether an event is a notification (individual or digest). -/
def isNotifyEv : Event → Bool
  | Event.notifyMention _ => true
  | Event.notifyDigest _ => true
  | _ => false

/-- Number of watermark reads in a trace. -/
def countReads (evs : List Event) : Nat := (evs.filter isReadSince).length

/-- Number of source fetches in a trace. -/
def countFetches (evs : List Event) : Nat := (evs.filter isFetchEv).length

/-- Number of notifications in a trace. -/
def countNotifies (evs : List Event) : Nat := (evs.filter isNotifyEv).length

/-- Scan a trace and check that every notification is preceded by some
row-append: `seen` records whether an append has happened yet. -/
def notifyAfterPersist : Bool → List Event → Bool
  | _, [] => true
  | _, Event.appendRows _ :: rest => notifyAfterPersist true rest
  | seen, Event.notifyMention _ :: rest => seen && notifyAfterPersist seen rest
  | seen, Event.notifyDigest _ :: rest => seen && notifyAfterPersist seen rest
  | seen, _ :: rest => notifyAfterPersist seen rest

/-! ## Helper lemmas -/

theorem filterTrackingLoop_eq_filter (q : List (String × String)) :
    filterTrackingLoop q = q.filter fun kv => !(isTrackingKey kv.1) := by
  induction q with
  | nil => rfl
  | cons kv rest ih =>
    by_cases h1 : strStartsWith (strLower kv.1) "utm_"
    · simp [filterTrackingLoop, List.filter_cons, isTrackingKey, h1, ih]
    · by_cases h2 : strLower kv.1 = "fbclid" ∨ strLower kv.1 = "gclid" ∨
          strLower kv.1 = "mc_cid" ∨ strLower kv.1 = "mc_eid"
      · rcases h2 with h | h | h | h <;>
          simp [filterTrackingLoop, List.filter_cons, isTrackingKey, h1, h, ih]
      · push_neg at h2
        simp [filterTrackingLoop, List.filter_cons, isTrackingKey, h1,
          h2.1, h2.2.1, h2.2.2.1, h2.2.2.2, ih]

theorem normalize_url_mk (u : URL) :
    normalize_url u = URL.mk u.scheme (strLower u.netloc) u.path u.params
      (u.query.filter fun kv => !(isTrackingKey kv.1)) "" := by
  simp [normalize_url, filterTrackingLoop_eq_filter]

/-! ## Concrete inputs used by witnesses and counterexamples -/

/-- Trivial external functions: parsing always fails, the hash is the
raw pre-image itself. -/
def extTriv : Ext :=
  { parse := fun _ => none, parseSeen := fun _ => none, isoOf := fun _ => "",
    urlunparse := fun _ => "", sha256hex := fun s => s }

/-- A small concrete URL. -/
def urlW : URL :=
  { scheme := "https", netloc := "example.com", path := "/a", params := "",
    query := [], fragment := "" }

/-- A concrete candidate item used to exercise the dedup loop. -/
def mDup : Item :=
  { source := "GDELT", title := "t", url := urlW, published_at := some "p" }

/-- All-failing GDELT attempt environment (every request gets an empty
body). -/
def wAllFail : Nat → GdeltAttempt := fun _ => GdeltAttempt.emptyBody

/-- C4 witness URL: tracking parameter, fragment, and upper-case host. -/
def u1W : URL :=
  { scheme := "https", netloc := "News.Example.COM", path := "/a", params := "",
    query := [("utm_source", "x"), ("id", "7")], fragment := "top" }

/-- C4 witness URL: same page as `u1W` modulo tracking parameters,
fragment and host case. -/
def u2W : URL :=
  { scheme := "https", netloc := "news.example.com", path := "/a", params := "",
    query := [("id", "7"), ("fbclid", "z")], fragment := "" }

/-! ## C5 — normalize_url contract -/

/-- C5: `normalize_url` empties the fragment, lower-cases the netloc,
keeps scheme, path and params untouched, and its query is exactly the
original query with tracking-key parameters removed — a subsequence of
the original, so the surviving parameters keep their order and values. -/
theorem normalize_url_contract (u : URL) :
    (normalize_url u).fragment = "" ∧
    (normalize_url u).netloc = strLower u.netloc ∧
    (normalize_url u).scheme = u.scheme ∧
    (normalize_url u).path = u.path ∧
    (normalize_url u).params = u.params ∧
    (normalize_url u).query = (u.query.filter fun kv => !(isTrackingKey kv.1)) ∧
    ((normalize_url u).query).Sublist u.query := by
  rw [normalize_url_mk]
  exact ⟨rfl, rfl, rfl, rfl, rfl, rfl, List.filter_sublist u.query⟩

/-! ## C4 — identifier invariance -/

/-- C4: `make_id` is invariant under differences confined to the
fragment, to tracking query parameters (keys starting with `utm_`,
case-insensitively, or in the configured click-id set), and to the
letter-case of the host; and it is deterministic — equal inputs always
give equal identifiers. Quantifying over `ext` covers the real sha256
and `urlunparse`. -/
theorem make_id_invariance (ext : Ext) (s : String) (u1 u2 : URL)
    (hscheme : u1.scheme = u2.scheme) (hpath : u1.path = u2.path)
    (hparams : u1.params = u2.params)
    (hnetloc : strLower u1.netloc = strLower u2.netloc)
    (hquery : (u1.query.filter fun kv => !(isTrackingKey kv.1)) =
      (u2.query.filter fun kv => !(isTrackingKey kv.1))) :
    make_id ext s u1 = make_id ext s u2 ∧
    ∀ (s1 s2 : String) (v1 v2 : URL), s1 = s2 → v1 = v2 →
      make_id ext s1 v1 = make_id ext s2 v2 := by
  constructor
  · have hnorm : normalize_url u1 = normalize_url u2 := by
      rw [normalize_url_mk, normalize_url_mk, hscheme, hpath, hparams,
        hnetloc, hquery]
    simp [make_id, hnorm]
  · rintro s1 s2 v1 v2 rfl rfl
    rfl

/-- C4 witness: the two concrete URLs above differ only by a `utm_`
parameter, an `fbclid` parameter, the fragment and host case, and get
the same identifier. -/
theorem make_id_invariance_witness :
    make_id extTriv "GDELT" u1W = make_id extTriv "GDELT" u2W :=
  (make_id_invariance extTriv "GDELT" u1W u2W rfl rfl rfl (by decide)
    (by decide)).1

/-! ## C1 — dedup partition -/

/-- C1 counterexample: the dedup loop never adds freshly-routed ids to
the seen set, so a batch holding the same candidate twice (id absent
from `seen`) routes BOTH copies to `new`: the claimed batch-internal
dedup would leave only the first. The resulting `new` list has two
entries carrying the same identifier. -/
theorem dedup_batch_duplicate_counterexample :
    (dedupNew extTriv 0 [] [mDup, mDup]).length = 2 ∧
    ¬ ((dedupNew extTriv 0 [] [mDup, mDup]).map NewMention.id).Nodup ∧
    ([] : List String).contains (enrich extTriv 0 mDup).id = false := by
  refine ⟨rfl, by decide, rfl⟩

/-- C1 amended: the dedup loop stably partitions the enriched candidates
into `new` and `skipped` with no loss or duplication; a candidate goes to
`new` iff its identifier is absent from the loaded seen-ID set — with no
batch-internal dedup, so equal-id candidates within one batch can all
land in `new` — and `new` is a subsequence of the input, preserving input
order. -/
theorem dedup_partition_amended (ext : Ext) (fetchedAt : Int)
    (existing : List String) (candidates : List Item) :
    ((dedupNew ext fetchedAt existing candidates ++
      dedupSkipped ext fetchedAt existing candidates).Perm
        (candidates.map (enrich ext fetchedAt))) ∧
    (∀ nm ∈ dedupNew ext fetchedAt existing candidates,
        existing.contains nm.id = false) ∧
    (∀ nm ∈ dedupSkipped ext fetchedAt existing candidates,
        existing.contains nm.id = true) ∧
    ((dedupNew ext fetchedAt existing candidates).Sublist
      (candidates.map (enrich ext fetchedAt))) ∧
    ∀ nm, nm ∈ dedupNew ext fetchedAt existing candidates ↔
      (nm ∈ candidates.map (enrich ext fetchedAt) ∧
        existing.contains nm.id = false) := by
  refine ⟨?_, ?_, ?_, List.filter_sublist _, ?_⟩
  · have hperm := List.filter_append_perm
      (fun nm => !(existing.contains nm.id)) (candidates.map (enrich ext fetchedAt))
    simpa [dedupNew, dedupSkipped, Bool.not_not] using hperm
  · intro nm h
    have := (List.mem_filter.mp h).2
    simpa using this
  · intro nm h
    exact (List.mem_filter.mp h).2
  · intro nm
    rw [dedupNew, List.mem_filter]
    simp

/-! ## C2 — time guard -/

theorem timeAccept_iff (ext : Ext) (now midnight lower : Int) (m : Item)
    (p : Int) (hm : safe_parse_dt ext.parse m.published_at = some p) :
    timeAccept ext now midnight lower m = true ↔
      (now - MAX_LOOKBACK_DAYS * 86400 ≤ p ∧ p ≤ now + 5 * 60 ∧
        midnight ≤ p ∧ lower ≤ p) := by
  simp only [timeAccept, hm]
  by_cases h1 : p < now - MAX_LOOKBACK_DAYS * 86400
  · simp only [if_pos h1]
    constructor
    · intro h
      exact absurd h (by simp)
    · intro h
      omega
  · simp only [if_neg h1]
    by_cases h2 : now + 5 * 60 < p
    · simp only [if_pos h2]
      constructor
      · intro h
        exact absurd h (by simp)
      · intro h
        omega
    · simp only [if_neg h2, Bool.and_eq_true, decide_eq_true_eq]
      omega

/-- C2: with the lower bound clamped the way `run` clamps the watermark
`w` to the KST midnight, an item whose `published_at` parses to `p` is
accepted iff `now - MAX_LOOKBACK_DAYS days ≤ p ≤ now + 5 minutes` and
`max w midnight ≤ p`; in particular, when the effective lower bound is
`T`, an item at `T - 1` is rejected and one at `T + 1` is accepted
(given the floor and future bounds hold there). -/
theorem time_guard_accept (ext : Ext) (now midnight w p : Int) (m : Item)
    (hm : safe_parse_dt ext.parse m.published_at = some p) :
    (timeAccept ext now midnight (if w < midnight then midnight else w) m = true ↔
      (now - MAX_LOOKBACK_DAYS * 86400 ≤ p ∧ p ≤ now + 5 * 60 ∧
        max w midnight ≤ p)) ∧
    ∀ (T : Int) (m1 m2 : Item), midnight ≤ T →
      safe_parse_dt ext.parse m1.published_at = some (T - 1) →
      safe_parse_dt ext.parse m2.published_at = some (T + 1) →
      now - MAX_LOOKBACK_DAYS * 86400 ≤ T - 1 → T + 1 ≤ now + 5 * 60 →
      timeAccept ext now midnight (if T < midnight then midnight else T) m1 =
          false ∧
      timeAccept ext now midnight (if T < midnight then midnight else T) m2 =
          true := by
  have hclamp : ∀ x : Int, (if x < midnight then midnight else x) = max x midnight := by
    intro x
    rcases lt_or_le x midnight with h | h
    · rw [if_pos h, max_eq_right h.le]
    · rw [if_neg (not_lt.mpr h), max_eq_left h]
  constructor
  · rw [hclamp w, timeAccept_iff ext now midnight (max w midnight) m p hm]
    have hle : midnight ≤ max w midnight := le_max_right w midnight
    omega
  · intro T m1 m2 hmidT h1 h2 hfloor hfut
    constructor
    · have hiff := timeAccept_iff ext now midnight
        (if T < midnight then midnight else T) m1 (T - 1) h1
      rw [hclamp T, max_eq_left hmidT] at hiff
      have hnot : ¬ (timeAccept ext now midnight T m1 = true) := by
        rw [hiff]
        omega
      rw [hclamp T, max_eq_left hmidT]
      exact Bool.eq_false_iff.mpr hnot
    · have hiff := timeAccept_iff ext now midnight
        (if T < midnight then midnight else T) m2 (T + 1) h2
      rw [hiff, hclamp T, max_eq_left hmidT]
      omega

/-- A parse function for the C2 witness: three fixed timestamp strings. -/
def parseW : String → Option Int :=
  fun s => if s = "p1" then some 0 else if s = "p2" then some 2
    else if s = "q" then some 1 else none

/-- Concrete external functions for the C2/C3 witnesses. -/
def extW : Ext :=
  { parse := parseW, parseSeen := fun _ => none, isoOf := fun _ => "",
    urlunparse := fun _ => "", sha256hex := fun s => s }

/-- C2 witness item published at `T - 1 = 0`. -/
def itemM1 : Item :=
  { source := "s", title := "t", url := urlW, published_at := some "p1" }

/-- C2 witness item published at `T + 1 = 2`. -/
def itemM2 : Item :=
  { source := "s", title := "t", url := urlW, published_at := some "p2" }

/-- C2 witness item published at `1`. -/
def itemQ : Item :=
  { source := "s", title := "t", url := urlW, published_at := some "q" }

/-- C2 witness: at `now = 1`, `midnight = 0`, watermark `T = 1`, the
boundary items at `T - 1` and `T + 1` are rejected and accepted. -/
theorem time_guard_accept_witness :
    timeAccept extW 1 0 (if (1 : Int) < 0 then 0 else 1) itemM1 = false ∧
    timeAccept extW 1 0 (if (1 : Int) < 0 then 0 else 1) itemM2 = true :=
  (time_guard_accept extW 1 0 1 1 itemQ (by decide)).2 1 itemM1 itemM2
    (by decide) (by decide) (by decide) (by decide) (by decide)

/-! ## Run-level helper lemmas -/

theorem runCore_events (ext : Ext) (now midnight t : Int) (col : List String)
    (rss : List RssEntry) (gw : Nat → GdeltAttempt) :
    (runCore ext now midnight t col rss gw).events =
      [Event.readSince, Event.fetchSource "GoogleNewsRSS",
        Event.fetchSource "GDELT", Event.loadIds] ++
      (if (runCore ext now midnight t col rss gw).newMentions.isEmpty then []
       else Event.appendRows (runCore ext now midnight t col rss gw).rows ::
        ((runCore ext now midnight t col rss gw).toSend.map Event.notifyMention ++
         (if (runCore ext now midnight t col rss gw).remaining.isEmpty then []
          else [Event.notifyDigest
            (runCore ext now midnight t col rss gw).remaining]))) ++
      [Event.writeSince now] := rfl

theorem runCore_filtered (ext : Ext) (now midnight t : Int) (col : List String)
    (rss : List RssEntry) (gw : Nat → GdeltAttempt) :
    (runCore ext now midnight t col rss gw).filtered =
      filterItems ext now midnight (if t < midnight then midnight else t)
        (runCore ext now midnight t col rss gw).allResults := rfl

theorem runCore_allResults (ext : Ext) (now midnight t : Int) (col : List String)
    (rss : List RssEntry) (gw : Nat → GdeltAttempt) :
    (runCore ext now midnight t col rss gw).allResults =
      fetch_google_news_rss ext rss ++ (fetch_gdelt ext gw 3).results := rfl

theorem runCore_newMentions (ext : Ext) (now midnight t : Int) (col : List String)
    (rss : List RssEntry) (gw : Nat → GdeltAttempt) :
    (runCore ext now midnight t col rss gw).newMentions =
      dedupNew ext now (sheet_get_existing_ids col)
        (runCore ext now midnight t col rss gw).filtered := rfl

theorem runCore_rows (ext : Ext) (now midnight t : Int) (col : List String)
    (rss : List RssEntry) (gw : Nat → GdeltAttempt) :
    (runCore ext now midnight t col rss gw).rows =
      (runCore ext now midnight t col rss gw).newMentions.map mkRow := rfl

theorem runCore_toSend (ext : Ext) (now midnight t : Int) (col : List String)
    (rss : List RssEntry) (gw : Nat → GdeltAttempt) :
    (runCore ext now midnight t col rss gw).toSend =
      (runCore ext now midnight t col rss gw).newMentions.take
        MAX_SLACK_ALERTS := rfl

theorem runCore_newSince (ext : Ext) (now midnight t : Int) (col : List String)
    (rss : List RssEntry) (gw : Nat → GdeltAttempt) :
    (runCore ext now midnight t col rss gw).newSince = now := rfl

theorem run_ok_cases {ext : Ext} {ch : String} {now midnight : Int}
    {meta : List (List String)} {col : List String} {rss : List RssEntry}
    {gw : Nat → GdeltAttempt} {r : RunResult}
    (h : run ext ch now midnight meta col rss gw = Except.ok r) :
    r = bootstrapResult now ∨
      ∃ t, r = runCore ext now midnight t col rss gw := by
  unfold run at h
  split at h
  · exact absurd h (by simp)
  · split at h
    · injection h with h
      exact Or.inl h.symm
    · split at h
      · injection h with h
        exact Or.inl h.symm
      · split at h
        · injection h with h
          exact Or.inl h.symm
        · injection h with h
          exact Or.inr ⟨_, h.symm⟩

/-! ## C6 — first-run bootstrap -/

/-- C6: when no watermark is persisted, the run returns the bootstrap
result: it writes the watermark once, to the run's start instant, fetches
nothing, notifies nothing, and terminates successfully. -/
theorem first_run_bootstrap (ext : Ext) (ch : String) (now midnight : Int)
    (meta : List (List String)) (col : List String) (rss : List RssEntry)
    (gw : Nat → GdeltAttempt) (hch : ch ≠ "")
    (hs : meta_get_since meta = none) :
    run ext ch now midnight meta col rss gw =
        Except.ok (bootstrapResult now) ∧
    (bootstrapResult now).newSince = now ∧
    sinceWrites (bootstrapResult now).events = [now] ∧
    countFetches (bootstrapResult now).events = 0 ∧
    countNotifies (bootstrapResult now).events = 0 ∧
    (bootstrapResult now).newMentions = [] := by
  refine ⟨?_, rfl, rfl, rfl, rfl, rfl⟩
  unfold run
  rw [if_neg hch, hs]

/-- C6 witness: a concrete first run (empty meta sheet) bootstraps. -/
theorem first_run_bootstrap_witness :
    run extTriv "C" 0 0 [] [] [] wAllFail = Except.ok (bootstrapResult 0) :=
  (first_run_bootstrap extTriv "C" 0 0 [] [] [] wAllFail (by decide) rfl).1

/-! ## C10 — corrupt watermark reset -/

/-- C10: a persisted but unparseable watermark makes the run reset the
watermark to now and bail out exactly like the bootstrap run: one
watermark write of the run's start instant, no fetching, no
notifications, successful termination. -/
theorem corrupt_watermark_reset (ext : Ext) (ch : String) (now midnight : Int)
    (meta : List (List String)) (col : List String) (rss : List RssEntry)
    (gw : Nat → GdeltAttempt) (s : String) (hch : ch ≠ "")
    (hs : meta_get_since meta = some s) (hne : s ≠ "")
    (hp : ext.parse s = none) :
    run ext ch now midnight meta col rss gw =
        Except.ok (bootstrapResult now) ∧
    (bootstrapResult now).newSince = now ∧
    sinceWrites (bootstrapResult now).events = [now] ∧
    countFetches (bootstrapResult now).events = 0 ∧
    countNotifies (bootstrapResult now).events = 0 := by
  refine ⟨?_, rfl, rfl, rfl, rfl⟩
  unfold run
  rw [if_neg hch, hs]
  simp only [if_neg hne, safe_parse_dt, hp]

/-- C10 witness: a meta sheet whose `since` value does not parse. -/
theorem corrupt_watermark_reset_witness :
    run extTriv "C" 0 0 [["k", "v"], ["since", "x"]] [] [] wAllFail =
      Except.ok (bootstrapResult 0) :=
  (corrupt_watermark_reset extTriv "C" 0 0 [["k", "v"], ["since", "x"]] [] []
    wAllFail "x" (by decide) (by decide) (by decide) rfl).1

/-! ## C7 — watermark lifecycle -/

theorem sinceWrites_append (a b : List Event) :
    sinceWrites (a ++ b) = sinceWrites a ++ sinceWrites b := by
  simp [sinceWrites]

theorem sinceWrites_notify_map (l : List NewMention) :
    sinceWrites (l.map Event.notifyMention) = [] := by
  induction l with
  | nil => rfl
  | cons a l ih => simp [sinceWrites, List.filterMap_cons, ih]

theorem sinceWrites_notifyTail (rows : List Row) (ts rem : List NewMention) :
    sinceWrites (Event.appendRows rows ::
      (ts.map Event.notifyMention ++
        (if rem.isEmpty then [] else [Event.notifyDigest rem]))) = [] := by
  have hdig : sinceWrites
      (if rem.isEmpty then ([] : List Event) else [Event.notifyDigest rem]) = [] := by
    split <;> rfl
  have hhead : sinceWrites (Event.appendRows rows ::
      (ts.map Event.notifyMention ++
        (if rem.isEmpty then [] else [Event.notifyDigest rem]))) =
      sinceWrites (ts.map Event.notifyMention ++
        (if rem.isEmpty then [] else [Event.notifyDigest rem])) := rfl
  rw [hhead, sinceWrites_append, sinceWrites_notify_map, hdig]
  rfl

theorem sinceWrites_runCore (ext : Ext) (now midnight t : Int)
    (col : List String) (rss : List RssEntry) (gw : Nat → GdeltAttempt) :
    sinceWrites (runCore ext now midnight t col rss gw).events = [now] := by
  rw [runCore_events, sinceWrites_append, sinceWrites_append]
  have h2 : sinceWrites
      (if (runCore ext now midnight t col rss gw).newMentions.isEmpty then []
       else Event.appendRows (runCore ext now midnight t col rss gw).rows ::
        ((runCore ext now midnight t col rss gw).toSend.map Event.notifyMention ++
         (if (runCore ext now midnight t col rss gw).remaining.isEmpty then []
          else [Event.notifyDigest
            (runCore ext now midnight t col rss gw).remaining]))) = [] := by
    split
    · rfl
    · exact sinceWrites_notifyTail _ _ _
  rw [h2]
  rfl

theorem countReads_notify_map (l : List NewMention) :
    countReads (l.map Event.notifyMention) = 0 := by
  induction l with
  | nil => rfl
  | cons a l ih => simp [countReads, isReadSince, List.filter_cons, ih]

theorem countReads_append (a b : List Event) :
    countReads (a ++ b) = countReads a + countReads b := by
  simp [countReads, List.filter_append]

theorem countReads_runCore (ext : Ext) (now midnight t : Int)
    (col : List String) (rss : List RssEntry) (gw : Nat → GdeltAttempt) :
    countReads (runCore ext now midnight t col rss gw).events = 1 := by
  rw [runCore_events, countReads_append, countReads_append]
  have h2 : countReads
      (if (runCore ext now midnight t col rss gw).newMentions.isEmpty then []
       else Event.appendRows (runCore ext now midnight t col rss gw).rows ::
        ((runCore ext now midnight t col rss gw).toSend.map Event.notifyMention ++
         (if (runCore ext now midnight t col rss gw).remaining.isEmpty then []
          else [Event.notifyDigest
            (runCore ext now midnight t col rss gw).remaining]))) = 0 := by
    split
    · rfl
    · have hdig : countReads
          (if (runCore ext now midnight t col rss gw).remaining.isEmpty then []
           else [Event.notifyDigest
             (runCore ext now midnight t col rss gw).remaining]) = 0 := by
        split <;> rfl
      have hhead : countReads
          (Event.appendRows (runCore ext now midnight t col rss gw).rows ::
            ((runCore ext now midnight t col rss gw).toSend.map
                Event.notifyMention ++
             (if (runCore ext now midnight t col rss gw).remaining.isEmpty then []
              else [Event.notifyDigest
                (runCore ext now midnight t col rss gw).remaining]))) =
          countReads
            ((runCore ext now midnight t col rss gw).toSend.map
                Event.notifyMention ++
             (if (runCore ext now midnight t col rss gw).remaining.isEmpty then []
              else [Event.notifyDigest
                (runCore ext now midnight t col rss gw).remaining])) := rfl
      rw [hhead, countReads_append, countReads_notify_map, hdig]
  rw [h2]
  rfl

theorem run_ok_newSince {ext : Ext} {ch : String} {now midnight : Int}
    {meta : List (List String)} {col : List String} {rss : List RssEntry}
    {gw : Nat → GdeltAttempt} {r : RunResult}
    (h : run ext ch now midnight meta col rss gw = Except.ok r) :
    r.newSince = now := by
  rcases run_ok_cases h with h | ⟨t, h⟩ <;> subst h <;> rfl

/-- C7: on every successful run the trace reads the watermark exactly
once (and first), writes it exactly once, and that write carries the
run's start instant; consequently, across two successful runs whose
start instants are ordered, the written watermark is monotonically
non-decreasing. -/
theorem watermark_once_monotone (ext : Ext) (ch : String) (now midnight : Int)
    (meta : List (List String)) (col : List String) (rss : List RssEntry)
    (gw : Nat → GdeltAttempt) (r : RunResult)
    (hr : run ext ch now midnight meta col rss gw = Except.ok r) :
    sinceWrites r.events = [now] ∧ countReads r.events = 1 ∧
    r.events.head? = some Event.readSince ∧ r.newSince = now ∧
    ∀ (ext2 : Ext) (ch2 : String) (now2 midnight2 : Int)
      (meta2 : List (List String)) (col2 : List String) (rss2 : List RssEntry)
      (gw2 : Nat → GdeltAttempt) (r2 : RunResult),
      run ext2 ch2 now2 midnight2 meta2 col2 rss2 gw2 = Except.ok r2 →
      now ≤ now2 → r.newSince ≤ r2.newSince := by
  refine ⟨?_, ?_, ?_, run_ok_newSince hr, ?_⟩
  · rcases run_ok_cases hr with h | ⟨t, h⟩ <;> subst h
    · rfl
    · exact sinceWrites_runCore ext now midnight t col rss gw
  · rcases run_ok_cases hr with h | ⟨t, h⟩ <;> subst h
    · rfl
    · exact countReads_runCore ext now midnight t col rss gw
  · rcases run_ok_cases hr with h | ⟨t, h⟩ <;> subst h <;> rfl
  · intro ext2 ch2 now2 midnight2 meta2 col2 rss2 gw2 r2 hr2 hle
    rw [run_ok_newSince hr, run_ok_newSince hr2]
    exact hle

/-- C7 witness: a concrete successful run writes its start instant once. -/
theorem watermark_once_monotone_witness :
    sinceWrites (bootstrapResult 5).events = [5] :=
  (watermark_once_monotone extTriv "C" 5 0 [] [] [] wAllFail
    (bootstrapResult 5) rfl).1

/-! ## C8 — persistence precedes notification -/

theorem notifyAfterPersist_true (l : List Event) :
    notifyAfterPersist true l = true := by
  induction l with
  | nil => rfl
  | cons e rest ih => cases e <;> exact ih

theorem notifyAfterPersist_runCore (ext : Ext) (now midnight t : Int)
    (col : List String) (rss : List RssEntry) (gw : Nat → GdeltAttempt) :
    notifyAfterPersist false (runCore ext now midnight t col rss gw).events =
      true := by
  rw [runCore_events]
  by_cases hemp : (runCore ext now midnight t col rss gw).newMentions.isEmpty
  · rw [if_pos hemp]
    rfl
  · rw [if_neg hemp]
    exact notifyAfterPersist_true _

theorem mem_notify_runCore {ext : Ext} {now midnight t : Int}
    {col : List String} {rss : List RssEntry} {gw : Nat → GdeltAttempt}
    {nm : NewMention}
    (h : Event.notifyMention nm ∈ (runCore ext now midnight t col rss gw).events) :
    nm ∈ (runCore ext now midnight t col rss gw).newMentions := by
  rw [runCore_events] at h
  rw [List.mem_append] at h
  rcases h with h | hw
  swap
  · exact absurd hw (by simp)
  rw [List.mem_append] at h
  rcases h with hA | hmid
  · exact absurd hA (by simp)
  · split at hmid
    · exact absurd hmid (by simp)
    · rw [List.mem_cons] at hmid
      rcases hmid with he | hmid
      · exact absurd he (by simp)
      · rw [List.mem_append] at hmid
        rcases hmid with hm | hd
        · rw [List.mem_map] at hm
          obtain ⟨x, hx, hxe⟩ := hm
          have hxnm : x = nm := by
            injection hxe
          subst hxnm
          rw [runCore_toSend] at hx
          exact List.mem_of_mem_take hx
        · split at hd
          · exact absurd hd (by simp)
          · rw [List.mem_singleton] at hd
            exact absurd hd (by simp)

/-- C8: on every successful run, the appended rows are exactly the rows
of all newly-accepted mentions, the append event is in the trace
whenever there are new mentions, every notification event in the trace
is preceded by the row append, and every individually-notified mention
is one of the (already persisted) new mentions. -/
theorem persist_before_notify (ext : Ext) (ch : String) (now midnight : Int)
    (meta : List (List String)) (col : List String) (rss : List RssEntry)
    (gw : Nat → GdeltAttempt) (r : RunResult)
    (hr : run ext ch now midnight meta col rss gw = Except.ok r) :
    notifyAfterPersist false r.events = true ∧
    r.rows = r.newMentions.map mkRow ∧
    (r.newMentions ≠ [] → Event.appendRows r.rows ∈ r.events) ∧
    ∀ nm, Event.notifyMention nm ∈ r.events → nm ∈ r.newMentions := by
  rcases run_ok_cases hr with h | ⟨t, h⟩ <;> subst h
  · refine ⟨rfl, rfl, ?_, ?_⟩
    · intro hne
      exact absurd rfl hne
    · intro nm h
      exact absurd h (by simp [bootstrapResult])
  · refine ⟨notifyAfterPersist_runCore ext now midnight t col rss gw,
      runCore_rows ext now midnight t col rss gw, ?_,
      fun nm h => mem_notify_runCore h⟩
    intro hne
    have hemp : ¬ ((runCore ext now midnight t col rss gw).newMentions.isEmpty = true) := by
      rw [List.isEmpty_iff]
      exact hne
    rw [runCore_events, if_neg hemp]
    simp

/-- C8 witness: a concrete successful run satisfies the ordering. -/
theorem persist_before_notify_witness :
    notifyAfterPersist false (bootstrapResult 0).events = true :=
  (persist_before_notify extTriv "C" 0 0 [] [] [] wAllFail
    (bootstrapResult 0) rfl).1

/-! ## C3 — unparseable timestamps are rejected -/

theorem timeAccept_none {ext : Ext} {now midnight lower : Int} {m : Item}
    (hm : safe_parse_dt ext.parse m.published_at = none) :
    timeAccept ext now midnight lower m = false := by
  simp [timeAccept, hm]

/-- C3: an item whose `published_at` is absent or unparseable never
survives the date filter; every filtered item, every persisted new
mention, and every individually-notified mention has a parseable
`published_at` (so the current time is never substituted for a missing
timestamp). -/
theorem unparseable_items_rejected (ext : Ext) (ch : String) (now midnight : Int)
    (meta : List (List String)) (col : List String) (rss : List RssEntry)
    (gw : Nat → GdeltAttempt) (r : RunResult) (m : Item)
    (hr : run ext ch now midnight meta col rss gw = Except.ok r)
    (hm : safe_parse_dt ext.parse m.published_at = none) :
    m ∉ r.filtered ∧
    (∀ m2 ∈ r.filtered, safe_parse_dt ext.parse m2.published_at ≠ none) ∧
    (∀ nm ∈ r.newMentions, safe_parse_dt ext.parse nm.base.published_at ≠ none) ∧
    ∀ nm, Event.notifyMention nm ∈ r.events →
      safe_parse_dt ext.parse nm.base.published_at ≠ none := by
  rcases run_ok_cases hr with h | ⟨t, h⟩ <;> subst h
  · refine ⟨by simp [bootstrapResult], ?_, ?_, ?_⟩
    · intro m2 hm2
      exact absurd hm2 (by simp [bootstrapResult])
    · intro nm hnm
      exact absurd hnm (by simp [bootstrapResult])
    · intro nm hnm
      exact absurd hnm (by simp [bootstrapResult])
  · have hfil : ∀ m2 ∈ (runCore ext now midnight t col rss gw).filtered,
        safe_parse_dt ext.parse m2.published_at ≠ none := by
      intro m2 hm2 hcon
      rw [runCore_filtered] at hm2
      have := (List.mem_filter.mp hm2).2
      rw [timeAccept_none hcon] at this
      exact absurd this (by simp)
    have hnew : ∀ nm ∈ (runCore ext now midnight t col rss gw).newMentions,
        safe_parse_dt ext.parse nm.base.published_at ≠ none := by
      intro nm hnm
      rw [runCore_newMentions] at hnm
      have hmem := (List.mem_filter.mp hnm).1
      rw [List.mem_map] at hmem
      obtain ⟨m2, hm2, henr⟩ := hmem
      have hpub : nm.base.published_at = m2.published_at := by
        rw [← henr]
        rfl
      rw [hpub]
      exact hfil m2 hm2
    refine ⟨?_, hfil, hnew, ?_⟩
    · intro hmem
      exact hfil m hmem hm
    · intro nm hnm
      exact hnew nm (mem_notify_runCore hnm)

/-- C3 witness: a concrete run never lets through a concrete item whose
timestamp is absent. -/
theorem unparseable_items_rejected_witness :
    ({ source := "s", title := "t", url := urlW, published_at := none } : Item) ∉
      (bootstrapResult 0).filtered :=
  (unparseable_items_rejected extW "C" 0 0 [] [] [] wAllFail
    (bootstrapResult 0)
    { source := "s", title := "t", url := urlW, published_at := none }
    rfl rfl).1

/-! ## C9 — fetch retry behaviour -/

theorem fetchGdeltGo_trace_length (ext : Ext) (w : Nat → GdeltAttempt) :
    ∀ (fuel attempt : Nat),
      (fetchGdeltGo ext w attempt fuel).trace.length ≤ fuel := by
  intro fuel
  induction fuel with
  | zero =>
    intro attempt
    exact Nat.le_refl 0
  | succ fuel ih =>
    intro attempt
    cases h : w attempt with
    | success arts => simp [fetchGdeltGo, h]
    | httpError code =>
      simp only [fetchGdeltGo, h, List.length_cons]
      exact Nat.succ_le_succ (ih (attempt + 1))
    | emptyBody =>
      simp only [fetchGdeltGo, h, List.length_cons]
      exact Nat.succ_le_succ (ih (attempt + 1))
    | wrongContentType ctype =>
      simp only [fetchGdeltGo, h, List.length_cons]
      exact Nat.succ_le_succ (ih (attempt + 1))
    | netException msg =>
      simp only [fetchGdeltGo, h, List.length_cons]
      exact Nat.succ_le_succ (ih (attempt + 1))

theorem fetchGdeltGo_no_sleep (ext : Ext) (w : Nat → GdeltAttempt) :
    ∀ (fuel attempt : Nat) (a : FetchAction),
      a ∈ (fetchGdeltGo ext w attempt fuel).trace → a.isSleep = false := by
  intro fuel
  induction fuel with
  | zero =>
    intro attempt a ha
    exact absurd ha (by simp [fetchGdeltGo])
  | succ fuel ih =>
    intro attempt a ha
    cases h : w attempt with
    | success arts =>
      rw [fetchGdeltGo, h] at ha
      simp only [List.mem_singleton] at ha
      subst ha
      rfl
    | httpError code =>
      rw [fetchGdeltGo, h] at ha
      rcases List.mem_cons.mp ha with ha | ha
      · subst ha
        rfl
      · exact ih (attempt + 1) a ha
    | emptyBody =>
      rw [fetchGdeltGo, h] at ha
      rcases List.mem_cons.mp ha with ha | ha
      · subst ha
        rfl
      · exact ih (attempt + 1) a ha
    | wrongContentType ctype =>
      rw [fetchGdeltGo, h] at ha
      rcases List.mem_cons.mp ha with ha | ha
      · subst ha
        rfl
      · exact ih (attempt + 1) a ha
    | netException msg =>
      rw [fetchGdeltGo, h] at ha
      rcases List.mem_cons.mp ha with ha | ha
      · subst ha
        rfl
      · exact ih (attempt + 1) a ha

theorem fetchGdeltGo_fail_results (ext : Ext) (w : Nat → GdeltAttempt)
    (hfail : ∀ n, (w n).succeeded = false) :
    ∀ (fuel attempt : Nat), (fetchGdeltGo ext w attempt fuel).results = [] := by
  intro fuel
  induction fuel with
  | zero =>
    intro attempt
    rfl
  | succ fuel ih =>
    intro attempt
    cases h : w attempt with
    | success arts =>
      have := hfail attempt
      rw [h] at this
      exact absurd this (by simp [GdeltAttempt.succeeded])
    | httpError code => simpa [fetchGdeltGo, h] using ih (attempt + 1)
    | emptyBody => simpa [fetchGdeltGo, h] using ih (attempt + 1)
    | wrongContentType ctype => simpa [fetchGdeltGo, h] using ih (attempt + 1)
    | netException msg => simpa [fetchGdeltGo, h] using ih (attempt + 1)

/-- C9 counterexample: three consecutive failing attempts produce three
back-to-back requests and no sleep action at all — the code performs no
delay between attempts (and `fetch_google_news_rss`, modelled over the
parsed feed, performs no retry loop whatsoever), refuting the claimed
"short increasing delay between attempts". -/
theorem gdelt_retry_no_delay_counterexample :
    (fetch_gdelt extTriv wAllFail 3).trace =
      [FetchAction.request 1, FetchAction.request 2, FetchAction.request 3] ∧
    ((fetch_gdelt extTriv wAllFail 3).trace.all fun a => !(a.isSleep)) = true ∧
    (fetch_gdelt extTriv wAllFail 3).results = [] := by
  refine ⟨rfl, by decide, rfl⟩

/-- C9 amended: GDELT is fetched with a bounded retry of at most 3
attempts with no delay between them; when every attempt fails the source
contributes an empty result set instead of aborting, and a successful
run still carries the other source's items (Google News RSS is fetched
in a single attempt, with no retry loop). -/
theorem fetch_retry_amended (ext : Ext) (w : Nat → GdeltAttempt) :
    (fetch_gdelt ext w 3).trace.length ≤ 3 ∧
    (∀ a ∈ (fetch_gdelt ext w 3).trace, a.isSleep = false) ∧
    ((∀ n, (w n).succeeded = false) → (fetch_gdelt ext w 3).results = []) ∧
    ∀ (ch : String) (now midnight : Int) (meta : List (List String))
      (col : List String) (rss : List RssEntry) (r : RunResult),
      (∀ n, (w n).succeeded = false) →
      run ext ch now midnight meta col rss w = Except.ok r →
      r.allResults = fetch_google_news_rss ext rss ∨ r.allResults = [] := by
  refine ⟨fetchGdeltGo_trace_length ext w 3 1,
    fun a ha => fetchGdeltGo_no_sleep ext w 3 1 a ha, ?_, ?_⟩
  · intro hfail
    exact fetchGdeltGo_fail_results ext w hfail 3 1
  · intro ch now midnight meta col rss r hfail hr
    rcases run_ok_cases hr with h | ⟨t, h⟩ <;> subst h
    · exact Or.inr rfl
    · left
      rw [runCore_allResults]
      have hres : (fetch_gdelt ext w 3).results = [] :=
        fetchGdeltGo_fail_results ext w hfail 3 1
      rw [hres, List.append_nil]

/-- C9 witness: the amended retry bounds at the all-failing environment. -/
theorem fetch_retry_amended_witness :
    (fetch_gdelt extTriv wAllFail 3).trace.length ≤ 3 ∧
    (fetch_gdelt extTriv wAllFail 3).results = [] ∧
    ((bootstrapResult 0).allResults = fetch_google_news_rss extTriv [] ∨
      (bootstrapResult 0).allResults = []) :=
  ⟨(fetch_retry_amended extTriv wAllFail).1,
    (fetch_retry_amended extTriv wAllFail).2.2.1 (fun _ => rfl),
    (fetch_retry_amended extTriv wAllFail).2.2.2 "C" 0 0 [] [] []
      (bootstrapResult 0) (fun _ => rfl) rfl⟩

end MonitorBot
